import Mathlib

/-!
Shallow embedding of `routing/index_graph_starter.cpp` (the routing-graph
adaptation layer of the omim routing engine): virtual start/finish endpoints
(`FakeJoint`), edge enumeration with virtual-endpoint injection
(`GetEdgesList`, `GetFakeEdges`, `GetArrivalFakeEdges`), route reconstruction
(`RedressRoute`) and common-segment resolution
(`FindPointsWithCommonFeature`), together with theorems checking the
specified properties of these operations.

The road network (`IndexGraph`) and the weight estimator are external
collaborators; they are modelled as records of the query functions the
starter performs on them.  Travel weights (C++ `double`) are modelled as
rationals.  Functions that throw `RoutingException` return `Except`.
-/

set_option linter.unusedVariables false

namespace Routing

/-- Joint identifiers (`Joint::Id`): an intersection node of the network. -/
abbrev JointId := Nat

/-- Source `RoadPoint`: a feature (road) identifier plus an integer point
offset along that road's point sequence. -/
structure RoadPoint where
  featureId : Nat
  pointId : Nat
deriving DecidableEq

/-- Source `JointEdge`: a directed edge to a target joint with a travel
weight. -/
structure JointEdge where
  target : JointId
  weight : ℚ
deriving DecidableEq

/-- Source `RoadGeometry`, abstracted by what the starter reads from it: the
routability flag (`IsRoad`), the one-way flag (`IsOneWay`), and a tag
standing for the remaining geometry data the weight estimator may consult. -/
structure RoadGeometry where
  isRoad : Bool
  isOneWay : Bool
  geomTag : Nat
deriving DecidableEq

/-- The external edge-weight estimator: `CalcEdgesWeight(road, p0, p1)`. -/
structure EdgeEstimator where
  calcEdgesWeight : RoadGeometry → Nat → Nat → ℚ

/-- The external read-only road network (`IndexGraph`), modelled by the
queries the starter performs on it.  `jointId` gives the real joint at a road
point if any (the C++ `Joint::kInvalidId` sentinel is modelled as `none`,
matching the interface contract `RealJointAt(Position) -> optional<NodeId>`);
`jointPoints` lists the road points of a real joint (`ForEachPoint`);
`directedEdge` models `GetDirectedEdge`, giving the weight of the single
directed edge between two point offsets on a road when present — the C++
function appends an edge whose target is the joint identifier the caller
passes in. -/
structure IndexGraph where
  numJoints : Nat
  jointId : RoadPoint → Option JointId
  jointPoints : JointId → List RoadPoint
  getRoad : Nat → RoadGeometry
  estimator : EdgeEstimator
  edgesList : JointId → Bool → List JointEdge
  neighboringEdges : RoadPoint → Bool → List JointEdge
  directedEdge : Nat → Nat → Nat → Bool → Option ℚ
  jointLiesOnRoad : JointId → Nat → Bool

/-- Source `IndexGraphStarter::FakeJoint`: a virtual endpoint at road point
`point`, with reserved identifier `fakeId` and resolved identifier
`jointId`. -/
structure FakeJoint where
  point : RoadPoint
  fakeId : JointId
  jointId : JointId
deriving DecidableEq

/-- Source `FakeJoint::CalcJointId`: the suggested real joint identifier when
valid, otherwise the reserved fake identifier (the `suggestedId ==
Joint::kInvalidId` test becomes a match on `Option`). -/
def FakeJoint.calcJointId (fakeId : JointId) (suggestedId : Option JointId) : JointId :=
  match suggestedId with
  | none => fakeId
  | some j => j

/-- Source `FakeJoint` constructor. -/
def FakeJoint.make (point : RoadPoint) (fakeId : JointId) (suggestedId : Option JointId) :
    FakeJoint :=
  ⟨point, fakeId, FakeJoint.calcJointId fakeId suggestedId⟩

/-- Modelled from the spec: `FakeJoint::IsFake` is declared in
`index_graph_starter.hpp`, which is not among the sources.  Per the spec an
endpoint "is not actually virtual" exactly when "it resolved to a real joint
because it coincided with one", i.e. it is fake exactly when its resolved
identifier is still its reserved identifier. -/
def FakeJoint.isFake (fj : FakeJoint) : Bool := fj.jointId == fj.fakeId

/-- Source `IndexGraphStarter`: the borrowed network plus the two virtual
endpoints. -/
structure IndexGraphStarter where
  graph : IndexGraph
  start : FakeJoint
  finish : FakeJoint

/-- Source `IndexGraphStarter` constructor: the start endpoint reserves
identifier `GetNumJoints()`, the finish endpoint `GetNumJoints() + 1`; when
the two road points are equal the finish endpoint reuses the start's resolved
identifier instead of looking its own up. -/
def IndexGraphStarter.make (graph : IndexGraph) (startPoint finishPoint : RoadPoint) :
    IndexGraphStarter :=
  let start := FakeJoint.make startPoint graph.numJoints (graph.jointId startPoint)
  { graph := graph
    start := start
    finish := FakeJoint.make finishPoint (graph.numJoints + 1)
      (if startPoint = finishPoint then some start.jointId else graph.jointId finishPoint) }

/-- Modelled from the spec: `IndexGraphStarter::ForEachPoint` is declared in
`index_graph_starter.hpp`, which is not among the sources.  A virtual
endpoint enumerates only its own road point ("a virtual endpoint's only
position is its own"); any other identifier delegates to the network's
point enumeration for that joint. -/
def IndexGraphStarter.pointsOf (s : IndexGraphStarter) (jointId : JointId) : List RoadPoint :=
  if jointId = s.start.fakeId then [s.start.point]
  else if jointId = s.finish.fakeId then [s.finish.point]
  else s.graph.jointPoints jointId

/-- Source `RoutingException`, with the data each `MYTHROW` site reports:
"Can't find common feature for joints j0, j1" and "Wrong equality
pointFrom = pointTo = p, featureId = f". -/
inductive RoutingError where
  | noCommonFeature (jointId0 jointId1 : JointId)
  | wrongPointEquality (pointId featureId : Nat)
deriving DecidableEq

/-- The loop state of `FindPointsWithCommonFeature`: the `found` flag, the
lazily computed `minWeight` (sentinel `-1.0`), and the two result road
points.  `estimatorCalls` is an instrumentation counter of `CalcEdgesWeight`
invocations (not part of the C++ state); the C++ out-parameters `result0`,
`result1` start uninitialized and are modelled by an arbitrary initial
value, which is never read before being written. -/
structure FpcfState where
  found : Bool
  minWeight : ℚ
  result0 : RoadPoint
  result1 : RoadPoint
  estimatorCalls : Nat
deriving DecidableEq

/-- Initial state of `FindPointsWithCommonFeature`. -/
def fpcfInit : FpcfState := ⟨false, -1, ⟨0, 0⟩, ⟨0, 0⟩, 0⟩

/-- One iteration of the nested loop body of `FindPointsWithCommonFeature`:
skip when the features differ, the road is not routable, or a one-way road
would be traversed backward; otherwise either record the first qualifying
pair, or compare weights (computing the previous best's weight lazily). -/
def fpcfStep (g : IndexGraph) (st : FpcfState) (rp0 rp1 : RoadPoint) : FpcfState :=
  if rp0.featureId ≠ rp1.featureId then st
  else
    let road := g.getRoad rp0.featureId
    if road.isRoad = false then st
    else if road.isOneWay = true ∧ rp1.pointId < rp0.pointId then st
    else if st.found then
      -- CalcEdgesWeight is very expensive, so it is calculated only once a
      -- second common feature is found.
      let st1 :=
        if st.minWeight < 0 then
          { st with
            minWeight := g.estimator.calcEdgesWeight (g.getRoad st.result0.featureId)
              st.result0.pointId st.result1.pointId
            estimatorCalls := st.estimatorCalls + 1 }
        else st
      let weight := g.estimator.calcEdgesWeight road rp0.pointId rp1.pointId
      let st2 := { st1 with estimatorCalls := st1.estimatorCalls + 1 }
      if weight < st2.minWeight then
        { st2 with minWeight := weight, result0 := rp0, result1 := rp1 }
      else st2
    else { st with found := true, result0 := rp0, result1 := rp1 }

/-- The state after the nested `ForEachPoint` loops of
`FindPointsWithCommonFeature` (outer loop over `jointId0`'s points, inner
loop over `jointId1`'s points). -/
def fpcfFinal (s : IndexGraphStarter) (jointId0 jointId1 : JointId) : FpcfState :=
  (s.pointsOf jointId0).foldl
    (fun st rp0 => (s.pointsOf jointId1).foldl (fun st rp1 => fpcfStep s.graph st rp0 rp1) st)
    fpcfInit

/-- Number of `CalcEdgesWeight` invocations performed by
`FindPointsWithCommonFeature`. -/
def estimatorCallsOf (s : IndexGraphStarter) (jointId0 jointId1 : JointId) : Nat :=
  (fpcfFinal s jointId0 jointId1).estimatorCalls

/-- Source `IndexGraphStarter::FindPointsWithCommonFeature`: the nested loops
followed by the `MYTHROW` when nothing was found. -/
def IndexGraphStarter.findPointsWithCommonFeature (s : IndexGraphStarter)
    (jointId0 jointId1 : JointId) : Except RoutingError (RoadPoint × RoadPoint) :=
  let final := fpcfFinal s jointId0 jointId1
  if final.found then .ok (final.result0, final.result1)
  else .error (.noCommonFeature jointId0 jointId1)

/-- The ascending interior loop of `RedressRoute`:
`for (pointId = pointFrom + 1; pointId < pointTo; ++pointId)` started at an
arbitrary `pointId`. -/
def ascLoop (featureId pointTo pointId : Nat) : List RoadPoint :=
  if h : pointId < pointTo then ⟨featureId, pointId⟩ :: ascLoop featureId pointTo (pointId + 1)
  else []
termination_by pointTo - pointId
decreasing_by omega

/-- The descending interior loop of `RedressRoute`:
`for (pointId = pointFrom - 1; pointId > pointTo; --pointId)` started at an
arbitrary `pointId`. -/
def descLoop (featureId pointTo pointId : Nat) : List RoadPoint :=
  if h : pointTo < pointId then ⟨featureId, pointId⟩ :: descLoop featureId pointTo (pointId - 1)
  else []
termination_by pointId - pointTo
decreasing_by omega

/-- The per-pair loop of `IndexGraphStarter::RedressRoute` over the
consecutive pairs `(route[i], route[i+1])` of the joint sequence; `isFirst`
tells whether `i == 0` (only then is the first resolved point emitted). -/
def redressGo (s : IndexGraphStarter) :
    List (JointId × JointId) → Bool → List RoadPoint → Except RoutingError (List RoadPoint)
  | [], _, roadPoints => .ok roadPoints
  | p :: rest, isFirst, roadPoints =>
    match s.findPointsWithCommonFeature p.1 p.2 with
    | .error e => .error e
    | .ok (rp0, rp1) =>
      let acc := if isFirst then roadPoints ++ [rp0] else roadPoints
      let featureId := rp0.featureId
      let pointFrom := rp0.pointId
      let pointTo := rp1.pointId
      if pointFrom < pointTo then
        redressGo s rest false (acc ++ ascLoop featureId pointTo (pointFrom + 1) ++ [rp1])
      else if pointTo < pointFrom then
        redressGo s rest false (acc ++ descLoop featureId pointTo (pointFrom - 1) ++ [rp1])
      else .error (.wrongPointEquality pointFrom featureId)

/-- Source `IndexGraphStarter::RedressRoute`.  The caller's buffer
`roadPoints` is only appended to, never cleared (the C++ `reserve` call has
no observable effect). -/
def IndexGraphStarter.redressRoute (s : IndexGraphStarter) (route : List JointId)
    (roadPoints : List RoadPoint) : Except RoutingError (List RoadPoint) :=
  if route.length < 2 then
    if route.length = 1 then .ok (roadPoints ++ [s.start.point]) else .ok roadPoints
  else redressGo s (route.zip route.tail) true roadPoints

/-- Source `IndexGraphStarter::GetFakeEdges`; `fj` is the endpoint being
expanded (C++ `from`), `tj` the other endpoint (C++ `to`).  The network's
`GetDirectedEdge` appends the single directed edge between the two offsets
when it exists, with the passed target `tj.jointId`. -/
def IndexGraphStarter.getFakeEdges (s : IndexGraphStarter) (fj tj : FakeJoint)
    (isOutgoing : Bool) (edges : List JointEdge) : List JointEdge :=
  let edges := edges ++ s.graph.neighboringEdges fj.point isOutgoing
  if tj.isFake = true ∧ fj.point.featureId = tj.point.featureId then
    edges ++
      (match s.graph.directedEdge fj.point.featureId fj.point.pointId tj.point.pointId
          isOutgoing with
       | some w => [⟨tj.jointId, w⟩]
       | none => [])
  else edges

/-- Source `IndexGraphStarter::GetArrivalFakeEdges`: skip when the endpoint
is not virtual or the joint is off its road, otherwise re-emit every
opposite-direction neighboring edge of the endpoint's position targeting the
joint, as an edge from the endpoint's resolved identifier with the same
weight. -/
def IndexGraphStarter.getArrivalFakeEdges (s : IndexGraphStarter) (jointId : JointId)
    (fakeJoint : FakeJoint) (isOutgoing : Bool) (edges : List JointEdge) : List JointEdge :=
  if fakeJoint.isFake = false then edges
  else if s.graph.jointLiesOnRoad jointId fakeJoint.point.featureId = false then edges
  else
    (s.graph.neighboringEdges fakeJoint.point (!isOutgoing)).foldl
      (fun acc edge =>
        if edge.target = jointId then acc ++ [⟨fakeJoint.jointId, edge.weight⟩] else acc)
      edges

/-- Source `IndexGraphStarter::GetEdgesList`: the caller's buffer is cleared
first (modelled by discarding it), then the three-way dispatch on the two
reserved identifiers. -/
def IndexGraphStarter.getEdgesList (s : IndexGraphStarter) (jointId : JointId)
    (isOutgoing : Bool) (edges : List JointEdge) : List JointEdge :=
  if jointId = s.start.fakeId then s.getFakeEdges s.start s.finish isOutgoing []
  else if jointId = s.finish.fakeId then s.getFakeEdges s.finish s.start isOutgoing []
  else
    let edges1 := s.graph.edgesList jointId isOutgoing
    let edges2 := s.getArrivalFakeEdges jointId s.start isOutgoing edges1
    s.getArrivalFakeEdges jointId s.finish isOutgoing edges2

/-!
Specification-side definitions, used to state the properties: they follow the
words of the spec (candidate pairs, qualification, weight, first minimum,
arrival edges as a filter, interior points as ranges) and are related to the
source-shaped functions above by the theorems.
-/

/-- The candidate pairs of `FindPointsWithCommonFeature`, in iteration order:
outer loop over `jointId0`'s road points, inner loop over `jointId1`'s. -/
def candidatePairs (s : IndexGraphStarter) (jointId0 jointId1 : JointId) :
    List (RoadPoint × RoadPoint) :=
  (s.pointsOf jointId0).flatMap fun rp0 => (s.pointsOf jointId1).map fun rp1 => (rp0, rp1)

/-- A candidate pair qualifies: both positions share the road identifier, the
road is routable, and on a one-way road the `joint0`-side offset must not
exceed the `joint1`-side offset. -/
def Qualifies (g : IndexGraph) (c : RoadPoint × RoadPoint) : Prop :=
  c.1.featureId = c.2.featureId ∧ (g.getRoad c.1.featureId).isRoad = true ∧
    ((g.getRoad c.1.featureId).isOneWay = true → c.1.pointId ≤ c.2.pointId)

instance (g : IndexGraph) (c : RoadPoint × RoadPoint) : Decidable (Qualifies g c) := by
  unfold Qualifies
  infer_instance

/-- The qualifying candidate pairs, in iteration order. -/
def qualifyingPairs (s : IndexGraphStarter) (jointId0 jointId1 : JointId) :
    List (RoadPoint × RoadPoint) :=
  (candidatePairs s jointId0 jointId1).filter fun c => decide (Qualifies s.graph c)

/-- The travel weight of a candidate pair, as the estimator computes it. -/
@[reducible]
def cweight (g : IndexGraph) (c : RoadPoint × RoadPoint) : ℚ :=
  g.estimator.calcEdgesWeight (g.getRoad c.1.featureId) c.1.pointId c.2.pointId

/-- First minimum of a list of candidates under a weight function, starting
from a current best: a later candidate replaces the best only when strictly
lighter. -/
def firstMin (w : RoadPoint × RoadPoint → ℚ) (best : RoadPoint × RoadPoint) :
    List (RoadPoint × RoadPoint) → RoadPoint × RoadPoint
  | [] => best
  | c :: rest => firstMin w (if w c < w best then c else best) rest

/-- Loop invariant of `FindPointsWithCommonFeature` over the qualifying
candidates processed so far: once a first qualifying candidate exists, the
result fields hold the first minimum-weight candidate, `minWeight` is either
the untouched sentinel or the weight of the current result, and after a
single qualifying candidate the estimator has never been invoked. -/
def FpcfInv (g : IndexGraph) : List (RoadPoint × RoadPoint) → FpcfState → Prop
  | [], st => st = fpcfInit
  | c :: rest, st =>
    st.found = true ∧
    (st.result0, st.result1) = firstMin (cweight g) c rest ∧
    (st.minWeight = -1 ∨ st.minWeight = cweight g (st.result0, st.result1)) ∧
    (rest = [] → st.minWeight = -1 ∧ st.estimatorCalls = 0)

/-- The arrival edges an endpoint contributes at a real joint: nothing when
the endpoint is not virtual or the joint is off the endpoint's road;
otherwise one edge from the endpoint's resolved identifier, with unchanged
weight, for each opposite-direction neighboring edge of the endpoint's
position whose target is the joint. -/
def arrivalAdded (s : IndexGraphStarter) (jointId : JointId) (fakeJoint : FakeJoint)
    (isOutgoing : Bool) : List JointEdge :=
  if fakeJoint.isFake = true ∧ s.graph.jointLiesOnRoad jointId fakeJoint.point.featureId = true
  then
    ((s.graph.neighboringEdges fakeJoint.point (!isOutgoing)).filter
        fun edge => decide (edge.target = jointId)).map
      fun edge => ⟨fakeJoint.jointId, edge.weight⟩
  else []

/-- The interior points strictly between offsets `a` and `b` (for `a < b`) on
feature `featureId`, in ascending order: offsets `a + 1, …, b - 1` with no
duplicates or skips. -/
def interiorAsc (featureId a b : Nat) : List RoadPoint :=
  (List.range' (a + 1) (b - (a + 1))).map fun p => ⟨featureId, p⟩

/-- The interior points strictly between offsets `b` and `a` (for `b < a`) on
feature `featureId`, in descending order: offsets `a - 1, …, b + 1` with no
duplicates or skips. -/
def interiorDesc (featureId a b : Nat) : List RoadPoint :=
  ((List.range' (b + 1) (a - (b + 1))).reverse).map fun p => ⟨featureId, p⟩

/-- The points `RedressRoute` is specified to emit for a list of consecutive
joint pairs: for each pair, the first resolved point (only for the very
first pair), then the interior points strictly between the two resolved
offsets in the offset direction, then the second resolved point. -/
def emitBlocks (s : IndexGraphStarter) : Bool → List (JointId × JointId) → List RoadPoint
  | _, [] => []
  | isFirst, p :: rest =>
    (match s.findPointsWithCommonFeature p.1 p.2 with
     | .ok (rp0, rp1) =>
       (if isFirst then [rp0] else []) ++
         (if rp0.pointId < rp1.pointId then interiorAsc rp0.featureId rp0.pointId rp1.pointId
          else interiorDesc rp0.featureId rp0.pointId rp1.pointId) ++ [rp1]
     | .error _ => []) ++ emitBlocks s false rest

/-!
Concrete networks used to evaluate the theorems on explicit inputs.
-/

/-- A network with a single routable road (feature 0, offsets 0..3) and two
joints: joint 0 at offset 0, joint 1 at offset 3. -/
def oneRoadGraph : IndexGraph where
  numJoints := 2
  jointId := fun rp => if rp = ⟨0, 0⟩ then some 0 else if rp = ⟨0, 3⟩ then some 1 else none
  jointPoints := fun j => if j = 0 then [⟨0, 0⟩] else if j = 1 then [⟨0, 3⟩] else []
  getRoad := fun _ => ⟨true, false, 0⟩
  estimator := ⟨fun _ _ _ => 1⟩
  edgesList := fun _ _ => []
  neighboringEdges := fun _ _ => []
  directedEdge := fun _ _ _ _ => none
  jointLiesOnRoad := fun _ _ => false

/-- A starter on `oneRoadGraph` whose endpoints lie away from the road, so
that real joints 0 and 1 keep their own point lists. -/
def oneRoadStarter : IndexGraphStarter := IndexGraphStarter.make oneRoadGraph ⟨7, 0⟩ ⟨7, 1⟩

/-- A degenerate network where joints 0 and 1 both lie on the same road point
`(feature 0, offset 1)` — the inconsistent geometry the "wrong equality"
exception of `RedressRoute` defends against. -/
def samePointGraph : IndexGraph where
  numJoints := 2
  jointId := fun _ => none
  jointPoints := fun j => if j = 0 then [⟨0, 1⟩] else if j = 1 then [⟨0, 1⟩] else []
  getRoad := fun _ => ⟨true, false, 0⟩
  estimator := ⟨fun _ _ _ => 1⟩
  edgesList := fun _ _ => []
  neighboringEdges := fun _ _ => []
  directedEdge := fun _ _ _ _ => none
  jointLiesOnRoad := fun _ _ => false

/-- A starter on `samePointGraph` with endpoints away from the road. -/
def samePointStarter : IndexGraphStarter := IndexGraphStarter.make samePointGraph ⟨9, 0⟩ ⟨9, 9⟩

/-- A network whose point-level edge query returns three edges into joint 0
from the start endpoint's position, so the start endpoint contributes three
arrival edges at joint 0. -/
def tripleArrivalGraph : IndexGraph where
  numJoints := 1
  jointId := fun _ => none
  jointPoints := fun _ => []
  getRoad := fun _ => ⟨true, false, 0⟩
  estimator := ⟨fun _ _ _ => 0⟩
  edgesList := fun _ _ => []
  neighboringEdges := fun rp dir => if rp = ⟨0, 1⟩ ∧ dir = false then [⟨0, 1⟩, ⟨0, 1⟩, ⟨0, 1⟩]
    else []
  directedEdge := fun _ _ _ _ => none
  jointLiesOnRoad := fun j fid => j == 0 && fid == 0

/-- A starter on `tripleArrivalGraph`: the start endpoint sits at
`(feature 0, offset 1)`, the finish endpoint on an unrelated road. -/
def tripleArrivalStarter : IndexGraphStarter :=
  IndexGraphStarter.make tripleArrivalGraph ⟨0, 1⟩ ⟨5, 0⟩

/-!
Helper lemmas.
-/

/-- A fold that conditionally appends single elements is an append of a
filtered map. -/
theorem foldl_emit_filter {α β : Type} (p : α → Prop) [DecidablePred p] (g : α → β)
    (l : List α) :
    ∀ (acc : List β),
      l.foldl (fun acc e => if p e then acc ++ [g e] else acc) acc
        = acc ++ (l.filter fun e => decide (p e)).map g := by
  induction l with
  | nil => intro acc; simp
  | cons e l ih =>
    intro acc
    by_cases hpe : p e
    · simp [hpe, ih]
    · simp [hpe, ih]

/-- `GetArrivalFakeEdges` appends exactly the arrival edges described by
`arrivalAdded`. -/
theorem getArrivalFakeEdges_eq (s : IndexGraphStarter) (jointId : JointId)
    (fakeJoint : FakeJoint) (isOutgoing : Bool) (edges : List JointEdge) :
    s.getArrivalFakeEdges jointId fakeJoint isOutgoing edges
      = edges ++ arrivalAdded s jointId fakeJoint isOutgoing := by
  unfold IndexGraphStarter.getArrivalFakeEdges arrivalAdded
  by_cases h1 : fakeJoint.isFake = false
  · simp [h1]
  · by_cases h2 : s.graph.jointLiesOnRoad jointId fakeJoint.point.featureId = false
    · simp [h1, h2]
    · rw [if_neg h1, if_neg h2]
      rw [foldl_emit_filter (fun (edge : JointEdge) => edge.target = jointId)
        (fun edge => (⟨fakeJoint.jointId, edge.weight⟩ : JointEdge))]
      rw [if_pos ⟨by simpa using h1, by simpa using h2⟩]

/-- The redress loop only appends: a prefix already in the buffer is carried
through unchanged. -/
theorem redressGo_buffer (s : IndexGraphStarter) (ps : List (JointId × JointId)) :
    ∀ (isFirst : Bool) (buf acc : List RoadPoint),
      redressGo s ps isFirst (buf ++ acc)
        = (redressGo s ps isFirst acc).map (fun tail => buf ++ tail) := by
  induction ps with
  | nil =>
    intro isFirst buf acc
    rfl
  | cons p rest ih =>
    intro isFirst buf acc
    rw [redressGo, redressGo]
    cases hfp : s.findPointsWithCommonFeature p.1 p.2 with
    | error e => rfl
    | ok r =>
      obtain ⟨rp0, rp1⟩ := r
      simp only
      by_cases hlt : rp0.pointId < rp1.pointId
      · rw [if_pos hlt, if_pos hlt]
        cases isFirst <;>
          simp only [Bool.false_eq_true, if_false, if_true, List.append_assoc] <;> rw [ih]
      · rw [if_neg hlt, if_neg hlt]
        by_cases hgt : rp1.pointId < rp0.pointId
        · rw [if_pos hgt, if_pos hgt]
          cases isFirst <;>
            simp only [Bool.false_eq_true, if_false, if_true, List.append_assoc] <;> rw [ih]
        · rw [if_neg hgt, if_neg hgt]
          rfl

/-!
Theorems for the claims.
-/

/-- C8: redressing a joint sequence of length 0 yields an empty point
sequence, and redressing a joint sequence of length 1 yields exactly one
point, the start endpoint's position. -/
theorem c8_redress_short_routes (s : IndexGraphStarter) (j : JointId) :
    s.redressRoute [] [] = .ok [] ∧ s.redressRoute [j] [] = .ok [s.start.point] :=
  ⟨rfl, rfl⟩

/-- C7: when the start and finish positions are identical, both virtual
endpoints resolve to the same identifier, namely the one computed for the
start — the real joint at that position when there is one, otherwise the
start's reserved identifier. -/
theorem c7_same_position_same_id (g : IndexGraph) (startPoint finishPoint : RoadPoint)
    (h : startPoint = finishPoint) :
    (IndexGraphStarter.make g startPoint finishPoint).finish.jointId =
      (IndexGraphStarter.make g startPoint finishPoint).start.jointId ∧
    (IndexGraphStarter.make g startPoint finishPoint).start.jointId =
      (g.jointId startPoint).getD
        ((IndexGraphStarter.make g startPoint finishPoint).start.fakeId) := by
  subst h
  constructor
  · simp [IndexGraphStarter.make, FakeJoint.make, FakeJoint.calcJointId]
  · simp only [IndexGraphStarter.make, FakeJoint.make, FakeJoint.calcJointId]
    cases g.jointId startPoint <;> rfl

/-- Witness for C7 on a concrete network and position. -/
theorem c7_same_position_same_id_witness :
    ((⟨3, 4⟩ : RoadPoint) = ⟨3, 4⟩) ∧
    ((IndexGraphStarter.make oneRoadGraph ⟨3, 4⟩ ⟨3, 4⟩).finish.jointId =
        (IndexGraphStarter.make oneRoadGraph ⟨3, 4⟩ ⟨3, 4⟩).start.jointId ∧
      (IndexGraphStarter.make oneRoadGraph ⟨3, 4⟩ ⟨3, 4⟩).start.jointId =
        (oneRoadGraph.jointId ⟨3, 4⟩).getD
          ((IndexGraphStarter.make oneRoadGraph ⟨3, 4⟩ ⟨3, 4⟩).start.fakeId)) :=
  ⟨rfl, c7_same_position_same_id oneRoadGraph ⟨3, 4⟩ ⟨3, 4⟩ rfl⟩

/-- C6: arrival-edge generation adds nothing when the endpoint resolved to a
real joint or the joint does not lie on the endpoint's road; otherwise it
re-emits exactly the opposite-direction neighboring edges of the endpoint's
position targeting the joint, each from the endpoint's resolved identifier
with the same weight. -/
theorem c6_arrival_fake_edges (s : IndexGraphStarter) (jointId : JointId)
    (fakeJoint : FakeJoint) (isOutgoing : Bool) (edges : List JointEdge) :
    (fakeJoint.isFake = false →
      s.getArrivalFakeEdges jointId fakeJoint isOutgoing edges = edges) ∧
    (s.graph.jointLiesOnRoad jointId fakeJoint.point.featureId = false →
      s.getArrivalFakeEdges jointId fakeJoint isOutgoing edges = edges) ∧
    s.getArrivalFakeEdges jointId fakeJoint isOutgoing edges
      = edges ++ arrivalAdded s jointId fakeJoint isOutgoing := by
  refine ⟨?_, ?_, getArrivalFakeEdges_eq s jointId fakeJoint isOutgoing edges⟩
  · intro h
    unfold IndexGraphStarter.getArrivalFakeEdges
    rw [if_pos h]
  · intro h
    unfold IndexGraphStarter.getArrivalFakeEdges
    by_cases h1 : fakeJoint.isFake = false
    · rw [if_pos h1]
    · rw [if_neg h1, if_pos h]

/-- Witness for C6 on a concrete non-virtual endpoint at a joint off its
road: both skip conditions hold and nothing is added. -/
theorem c6_arrival_fake_edges_witness :
    (FakeJoint.isFake ⟨⟨0, 0⟩, 5, 3⟩ = false ∧
      oneRoadStarter.graph.jointLiesOnRoad 0 (⟨0, 0⟩ : RoadPoint).featureId = false) ∧
    (oneRoadStarter.getArrivalFakeEdges 0 ⟨⟨0, 0⟩, 5, 3⟩ true [⟨0, 2⟩] = [⟨0, 2⟩] ∧
      oneRoadStarter.getArrivalFakeEdges 0 ⟨⟨0, 0⟩, 5, 3⟩ true [⟨0, 2⟩] = [⟨0, 2⟩] ∧
      oneRoadStarter.getArrivalFakeEdges 0 ⟨⟨0, 0⟩, 5, 3⟩ true [⟨0, 2⟩]
        = [⟨0, 2⟩] ++ arrivalAdded oneRoadStarter 0 ⟨⟨0, 0⟩, 5, 3⟩ true) :=
  ⟨⟨by decide, by decide⟩,
    ⟨(c6_arrival_fake_edges oneRoadStarter 0 ⟨⟨0, 0⟩, 5, 3⟩ true [⟨0, 2⟩]).1 (by decide),
      (c6_arrival_fake_edges oneRoadStarter 0 ⟨⟨0, 0⟩, 5, 3⟩ true [⟨0, 2⟩]).2.1 (by decide),
      (c6_arrival_fake_edges oneRoadStarter 0 ⟨⟨0, 0⟩, 5, 3⟩ true [⟨0, 2⟩]).2.2⟩⟩

/-- C5: the edges produced for a virtual endpoint are exactly the network's
neighboring edges of its position plus, only when the other endpoint is also
virtual and on the same road, the single directed edge between the two
offsets with the other endpoint's resolved identifier as target; no other
edge is ever produced. -/
theorem c5_fake_edges_exactly (s : IndexGraphStarter) (fj tj : FakeJoint) (isOutgoing : Bool)
    (e : JointEdge) :
    e ∈ s.getFakeEdges fj tj isOutgoing [] ↔
      (e ∈ s.graph.neighboringEdges fj.point isOutgoing ∨
        (tj.isFake = true ∧ fj.point.featureId = tj.point.featureId ∧
          ∃ w, s.graph.directedEdge fj.point.featureId fj.point.pointId tj.point.pointId
              isOutgoing = some w ∧ e = ⟨tj.jointId, w⟩)) := by
  unfold IndexGraphStarter.getFakeEdges
  by_cases hc : tj.isFake = true ∧ fj.point.featureId = tj.point.featureId
  · rw [if_pos hc]
    cases hde : s.graph.directedEdge fj.point.featureId fj.point.pointId tj.point.pointId
        isOutgoing with
    | none => simp [hc]
    | some w =>
      simp only [List.nil_append, List.mem_append, List.mem_singleton]
      constructor
      · rintro (h | h)
        · exact Or.inl h
        · exact Or.inr ⟨hc.1, hc.2, w, rfl, h⟩
      · rintro (h | ⟨_, _, w', hw', he⟩)
        · exact Or.inl h
        · obtain rfl := Option.some.inj hw'
          exact Or.inr he
  · rw [if_neg hc]
    simp only [List.nil_append]
    constructor
    · intro h
      exact Or.inl h
    · rintro (h | ⟨h1, h2, _⟩)
      · exact h
      · exact absurd ⟨h1, h2⟩ hc

/-- C10: `GetEdgesList` clears the caller's buffer, so its result does not
depend on the buffer's prior contents; `RedressRoute` appends after the
buffer's prior contents, leaving them unchanged. -/
theorem c10_buffer_semantics (s : IndexGraphStarter) :
    (∀ (jointId : JointId) (isOutgoing : Bool) (buf : List JointEdge),
      s.getEdgesList jointId isOutgoing buf = s.getEdgesList jointId isOutgoing []) ∧
    (∀ (route : List JointId) (buf : List RoadPoint),
      s.redressRoute route buf = (s.redressRoute route []).map (fun tail => buf ++ tail)) := by
  constructor
  · intro jointId isOutgoing buf
    rfl
  · intro route buf
    unfold IndexGraphStarter.redressRoute
    by_cases h2 : route.length < 2
    · by_cases h1 : route.length = 1 <;> simp [h2, h1, Except.map]
    · rw [if_neg h2, if_neg h2]
      simpa using redressGo_buffer s (route.zip route.tail) true buf []

/-- C4 (amended): for a real joint, `GetEdgesList` returns the network's own
edge list followed by the arrival edges contributed by the start endpoint and
then by the finish endpoint — zero or more per endpoint, one for each
opposite-direction neighboring edge of the endpoint targeting the joint —
and is never smaller than the network's own list. -/
theorem c4_edges_list_real_joint (g : IndexGraph) (startPoint finishPoint : RoadPoint)
    (jointId : JointId) (isOutgoing : Bool) (buf : List JointEdge) (s : IndexGraphStarter)
    (hs : s = IndexGraphStarter.make g startPoint finishPoint) (hj : jointId < g.numJoints) :
    s.getEdgesList jointId isOutgoing buf
      = g.edgesList jointId isOutgoing ++ arrivalAdded s jointId s.start isOutgoing
          ++ arrivalAdded s jointId s.finish isOutgoing ∧
    (g.edgesList jointId isOutgoing).length ≤ (s.getEdgesList jointId isOutgoing buf).length := by
  have h0 : s.start.fakeId = g.numJoints := by rw [hs]; rfl
  have h1 : s.finish.fakeId = g.numJoints + 1 := by rw [hs]; rfl
  have hg : s.graph = g := by rw [hs]; rfl
  have hne0 : jointId ≠ s.start.fakeId := by rw [h0]; exact Nat.ne_of_lt hj
  have hne1 : jointId ≠ s.finish.fakeId := by
    rw [h1]; exact Nat.ne_of_lt (Nat.lt_succ_of_lt hj)
  have heq : s.getEdgesList jointId isOutgoing buf
      = g.edgesList jointId isOutgoing ++ arrivalAdded s jointId s.start isOutgoing
          ++ arrivalAdded s jointId s.finish isOutgoing := by
    unfold IndexGraphStarter.getEdgesList
    rw [if_neg hne0, if_neg hne1]
    simp only
    rw [getArrivalFakeEdges_eq, getArrivalFakeEdges_eq, hg]
  refine ⟨heq, ?_⟩
  rw [heq]
  simp [List.length_append]

/-- Witness for C4 on a concrete network. -/
theorem c4_edges_list_real_joint_witness :
    0 < tripleArrivalGraph.numJoints ∧
    (tripleArrivalStarter.getEdgesList 0 true []
        = tripleArrivalGraph.edgesList 0 true
            ++ arrivalAdded tripleArrivalStarter 0 tripleArrivalStarter.start true
            ++ arrivalAdded tripleArrivalStarter 0 tripleArrivalStarter.finish true ∧
      (tripleArrivalGraph.edgesList 0 true).length
        ≤ (tripleArrivalStarter.getEdgesList 0 true []).length) :=
  ⟨by decide,
    c4_edges_list_real_joint tripleArrivalGraph ⟨0, 1⟩ ⟨5, 0⟩ 0 true [] tripleArrivalStarter rfl
      (by decide)⟩

/-- Counterexample for C4 as stated: on `tripleArrivalGraph` the edge list of
real joint 0 exceeds the network's own list by three arrival edges, not by at
most two. -/
theorem c4_edges_list_counterexample :
    ¬ ((tripleArrivalStarter.getEdgesList 0 true []).length
        ≤ (tripleArrivalGraph.edgesList 0 true).length + 2) := by
  decide

/-- A non-qualifying candidate pair leaves the loop state unchanged. -/
theorem fpcfStep_skip (g : IndexGraph) (st : FpcfState) (c : RoadPoint × RoadPoint)
    (h : ¬ Qualifies g c) : fpcfStep g st c.1 c.2 = st := by
  unfold Qualifies at h
  push_neg at h
  by_cases hA : c.1.featureId = c.2.featureId
  · by_cases hB : (g.getRoad c.1.featureId).isRoad = true
    · obtain ⟨hC, hD⟩ := h hA hB
      unfold fpcfStep
      rw [if_neg (not_not_intro hA)]
      simp only
      rw [if_neg (by simp [hB]), if_pos ⟨hC, hD⟩]
    · have hB' : (g.getRoad c.1.featureId).isRoad = false := by
        simpa using hB
      unfold fpcfStep
      rw [if_neg (not_not_intro hA)]
      simp only
      rw [if_pos hB']
  · unfold fpcfStep
    rw [if_pos hA]

/-- The nested loops of `FindPointsWithCommonFeature` fold the step function
over the candidate pairs in iteration order. -/
theorem fpcfFinal_eq_foldl (s : IndexGraphStarter) (j0 j1 : JointId) :
    fpcfFinal s j0 j1
      = (candidatePairs s j0 j1).foldl (fun st c => fpcfStep s.graph st c.1 c.2) fpcfInit := by
  unfold fpcfFinal candidatePairs
  generalize s.pointsOf j0 = l0
  generalize s.pointsOf j1 = l1
  generalize fpcfInit = st
  induction l0 generalizing st with
  | nil => rfl
  | cons rp0 l0 ih =>
    simp only [List.foldl_cons, List.flatMap_cons, List.foldl_append, List.foldl_map]
    exact ih _

/-- Folding the step function skips the non-qualifying candidates. -/
theorem fpcf_foldl_filter (g : IndexGraph) (l : List (RoadPoint × RoadPoint)) :
    ∀ st, l.foldl (fun st c => fpcfStep g st c.1 c.2) st
      = (l.filter fun c => decide (Qualifies g c)).foldl
          (fun st c => fpcfStep g st c.1 c.2) st := by
  induction l with
  | nil => intro st; rfl
  | cons c l ih =>
    intro st
    by_cases hq : Qualifies g c
    · simp only [List.foldl_cons, List.filter_cons, decide_eq_true hq, if_pos]
      exact ih _
    · simp only [List.foldl_cons, List.filter_cons]
      rw [fpcfStep_skip g st c hq]
      have : decide (Qualifies g c) = false := decide_eq_false hq
      rw [this]
      simp only [Bool.false_eq_true, if_false]
      exact ih st

/-- The first minimum never weighs more than the initial best. -/
theorem firstMin_le (w : RoadPoint × RoadPoint → ℚ) (l : List (RoadPoint × RoadPoint)) :
    ∀ b, w (firstMin w b l) ≤ w b := by
  induction l with
  | nil => intro b; exact le_refl _
  | cons c l ih =>
    intro b
    rw [firstMin]
    by_cases h : w c < w b
    · rw [if_pos h]
      exact le_trans (ih c) (le_of_lt h)
    · rw [if_neg h]
      exact ih b

/-- Appending one candidate to a first-minimum computation replaces the best
only when the new candidate is strictly lighter. -/
theorem firstMin_append (w : RoadPoint × RoadPoint → ℚ) (l : List (RoadPoint × RoadPoint)) :
    ∀ b d, firstMin w b (l ++ [d])
      = if w d < w (firstMin w b l) then d else firstMin w b l := by
  induction l with
  | nil => intro b d; rfl
  | cons c l ih =>
    intro b d
    rw [List.cons_append, firstMin, firstMin]
    exact ih _ d

/-- The first minimum splits its input: strictly heavier candidates before
it, no lighter candidate after it. -/
theorem firstMin_split (w : RoadPoint × RoadPoint → ℚ) (l : List (RoadPoint × RoadPoint)) :
    ∀ b, ∃ pre post,
      b :: l = pre ++ firstMin w b l :: post ∧
      (∀ c ∈ pre, w (firstMin w b l) < w c) ∧
      (∀ c ∈ post, w (firstMin w b l) ≤ w c) := by
  induction l with
  | nil =>
    intro b
    exact ⟨[], [], rfl, by simp, by simp⟩
  | cons c l ih =>
    intro b
    rw [firstMin]
    by_cases h : w c < w b
    · rw [if_pos h]
      obtain ⟨pre, post, heq, hpre, hpost⟩ := ih c
      refine ⟨b :: pre, post, ?_, ?_, hpost⟩
      · rw [List.cons_append, ← heq]
      · intro d hd
        rcases List.mem_cons.mp hd with rfl | hd
        · exact lt_of_le_of_lt (firstMin_le w l c) h
        · exact hpre d hd
    · rw [if_neg h]
      obtain ⟨pre, post, heq, hpre, hpost⟩ := ih b
      cases pre with
      | nil =>
        simp only [List.nil_append] at heq
        obtain ⟨hm, hpost'⟩ := List.cons.inj heq
        refine ⟨[], c :: l, by simp [← hm], by simp, ?_⟩
        intro d hd
        rcases List.mem_cons.mp hd with rfl | hd
        · rw [← hm]
          exact le_of_not_lt h
        · exact hpost d (hpost' ▸ hd)
      | cons p pre' =>
        rw [List.cons_append] at heq
        obtain ⟨hbp, hl⟩ := List.cons.inj heq
        refine ⟨b :: c :: pre', post, ?_, ?_, hpost⟩
        · simp only [List.cons_append]
          rw [← hl]
        · intro d hd
          rcases List.mem_cons.mp hd with rfl | hd
          · exact hbp ▸ hpre p (List.mem_cons_self p pre')
          rcases List.mem_cons.mp hd with rfl | hd
          · exact lt_of_lt_of_le (hbp ▸ hpre p (List.mem_cons_self p pre')) (le_of_not_lt h)
          · exact hpre d (List.mem_cons_of_mem p hd)

/-- Processing one more qualifying candidate preserves the loop invariant. -/
theorem fpcfInv_step (g : IndexGraph) (q : List (RoadPoint × RoadPoint)) (st : FpcfState)
    (c : RoadPoint × RoadPoint) (hq : Qualifies g c) (h : FpcfInv g q st) :
    FpcfInv g (q ++ [c]) (fpcfStep g st c.1 c.2) := by
  obtain ⟨hA, hB, hC⟩ := hq
  cases q with
  | nil =>
    simp only [FpcfInv] at h
    have hkey : fpcfStep g st c.1 c.2 = ⟨true, st.minWeight, c.1, c.2, st.estimatorCalls⟩ := by
      unfold fpcfStep
      rw [if_neg (not_not_intro hA)]
      simp only
      rw [if_neg (by simp [hB]), if_neg (fun hx => absurd hx.2 (not_lt.mpr (hC hx.1)))]
      rw [h]
      rfl
    rw [hkey, h]
    exact ⟨rfl, rfl, Or.inl rfl, fun _ => ⟨rfl, rfl⟩⟩
  | cons c0 rest =>
    obtain ⟨hfound, hres, hmw, hsingle⟩ := h
    have happ : (c0 :: rest) ++ [c] = c0 :: (rest ++ [c]) := rfl
    rw [happ]
    have hfm := firstMin_append (cweight g) rest c0 c
    by_cases hw : cweight g c < cweight g (st.result0, st.result1)
    · have hkey : fpcfStep g st c.1 c.2 =
          ⟨st.found, cweight g c, c.1, c.2,
            (if st.minWeight < 0 then st.estimatorCalls + 1 else st.estimatorCalls) + 1⟩ := by
        unfold fpcfStep
        rw [if_neg (not_not_intro hA)]
        simp only
        rw [if_neg (by simp [hB]), if_neg (fun hx => absurd hx.2 (not_lt.mpr (hC hx.1))),
          if_pos hfound]
        by_cases hneg : st.minWeight < 0
        · rw [if_pos hneg]
          simp only
          rw [if_pos hw, if_pos hneg]
        · have hm2 : st.minWeight = cweight g (st.result0, st.result1) := by
            rcases hmw with hm1 | hm2
            · exact absurd (by rw [hm1]; norm_num) hneg
            · exact hm2
          rw [if_neg hneg, if_neg hneg, hm2, if_pos hw]
      rw [hkey]
      refine ⟨hfound, ?_, Or.inr rfl, fun habs => absurd habs (by simp)⟩
      rw [hfm, ← hres, if_pos hw]
    · have hkey : fpcfStep g st c.1 c.2 =
          ⟨st.found, cweight g (st.result0, st.result1), st.result0, st.result1,
            (if st.minWeight < 0 then st.estimatorCalls + 1 else st.estimatorCalls) + 1⟩ := by
        unfold fpcfStep
        rw [if_neg (not_not_intro hA)]
        simp only
        rw [if_neg (by simp [hB]), if_neg (fun hx => absurd hx.2 (not_lt.mpr (hC hx.1))),
          if_pos hfound]
        by_cases hneg : st.minWeight < 0
        · rw [if_pos hneg]
          simp only
          rw [if_neg hw, if_pos hneg]
        · have hm2 : st.minWeight = cweight g (st.result0, st.result1) := by
            rcases hmw with hm1 | hm2
            · exact absurd (by rw [hm1]; norm_num) hneg
            · exact hm2
          rw [if_neg hneg, if_neg hneg, hm2, if_neg hw]
      rw [hkey]
      refine ⟨hfound, ?_, Or.inr rfl, fun habs => absurd habs (by simp)⟩
      rw [hfm, ← hres, if_neg hw]

/-- Folding the step function over qualifying candidates preserves the loop
invariant. -/
theorem fpcfInv_foldl (g : IndexGraph) (l : List (RoadPoint × RoadPoint)) :
    ∀ (q : List (RoadPoint × RoadPoint)) (st : FpcfState), (∀ c ∈ l, Qualifies g c) →
      FpcfInv g q st → FpcfInv g (q ++ l) (l.foldl (fun st c => fpcfStep g st c.1 c.2) st) := by
  induction l with
  | nil =>
    intro q st _ h
    simpa using h
  | cons c l ih =>
    intro q st hq h
    simp only [List.foldl_cons]
    have h1 := fpcfInv_step g q st c (hq c (List.mem_cons_self c l)) h
    have h2 := ih (q ++ [c]) _ (fun d hd => hq d (List.mem_cons_of_mem c hd)) h1
    simpa [List.append_assoc] using h2

/-- The final loop state of `FindPointsWithCommonFeature` satisfies the
invariant over the full list of qualifying candidate pairs. -/
theorem fpcfInv_main (s : IndexGraphStarter) (j0 j1 : JointId) :
    FpcfInv s.graph (qualifyingPairs s j0 j1) (fpcfFinal s j0 j1) := by
  rw [fpcfFinal_eq_foldl, fpcf_foldl_filter]
  have h0 : FpcfInv s.graph [] fpcfInit := rfl
  have := fpcfInv_foldl s.graph
    ((candidatePairs s j0 j1).filter fun c => decide (Qualifies s.graph c)) [] fpcfInit
    (fun c hc => of_decide_eq_true (List.mem_filter.mp hc).2) h0
  simpa [qualifyingPairs] using this

/-- C3: `FindPointsWithCommonFeature` raises the fatal routing exception
carrying both joint identifiers exactly when no candidate pair qualifies,
where a pair qualifies when both positions share the road, the road is
routable, and a one-way road is only traversed forward. -/
theorem c3_no_common_feature_iff (s : IndexGraphStarter) (j0 j1 : JointId) :
    s.findPointsWithCommonFeature j0 j1 = .error (.noCommonFeature j0 j1)
      ↔ qualifyingPairs s j0 j1 = [] := by
  have hinv := fpcfInv_main s j0 j1
  unfold IndexGraphStarter.findPointsWithCommonFeature
  cases hq : qualifyingPairs s j0 j1 with
  | nil =>
    rw [hq] at hinv
    simp only [FpcfInv] at hinv
    rw [hinv]
    simp [fpcfInit]
  | cons c rest =>
    rw [hq] at hinv
    obtain ⟨hfound, -, -, -⟩ := hinv
    simp [hfound]

/-- C2: among a nonempty set of qualifying candidates,
`FindPointsWithCommonFeature` returns the first candidate of minimum travel
weight in iteration order (every earlier candidate is strictly heavier, no
later candidate is lighter), and when exactly one candidate qualifies the
estimator is never invoked. -/
theorem c2_find_points_min_weight (s : IndexGraphStarter) (j0 j1 : JointId)
    (hne : qualifyingPairs s j0 j1 ≠ []) :
    ∃ res pre post,
      s.findPointsWithCommonFeature j0 j1 = .ok res ∧
      qualifyingPairs s j0 j1 = pre ++ res :: post ∧
      (∀ c ∈ pre, cweight s.graph res < cweight s.graph c) ∧
      (∀ c ∈ post, cweight s.graph res ≤ cweight s.graph c) ∧
      ((qualifyingPairs s j0 j1).length = 1 → estimatorCallsOf s j0 j1 = 0) := by
  have hinv := fpcfInv_main s j0 j1
  cases hq : qualifyingPairs s j0 j1 with
  | nil => exact absurd hq hne
  | cons c rest =>
    rw [hq] at hinv
    obtain ⟨hfound, hres, hmw, hsingle⟩ := hinv
    obtain ⟨pre, post, heq, hpre, hpost⟩ := firstMin_split (cweight s.graph) rest c
    refine ⟨firstMin (cweight s.graph) c rest, pre, post, ?_, ?_, hpre, hpost, ?_⟩
    · unfold IndexGraphStarter.findPointsWithCommonFeature
      simp only [hfound, if_true]
      rw [← hres]
    · exact heq
    · intro hlen
      have hrest : rest = [] := by
        cases rest with
        | nil => rfl
        | cons d ds => simp at hlen
      exact (hsingle hrest).2

/-- Witness for C2 on a concrete network with one qualifying candidate. -/
theorem c2_find_points_min_weight_witness :
    qualifyingPairs oneRoadStarter 0 1 ≠ [] ∧
    (∃ res pre post,
      oneRoadStarter.findPointsWithCommonFeature 0 1 = .ok res ∧
      qualifyingPairs oneRoadStarter 0 1 = pre ++ res :: post ∧
      (∀ c ∈ pre, cweight oneRoadStarter.graph res < cweight oneRoadStarter.graph c) ∧
      (∀ c ∈ post, cweight oneRoadStarter.graph res ≤ cweight oneRoadStarter.graph c) ∧
      ((qualifyingPairs oneRoadStarter 0 1).length = 1 → estimatorCallsOf oneRoadStarter 0 1 = 0)) :=
  ⟨by decide, c2_find_points_min_weight oneRoadStarter 0 1 (by decide)⟩

/-- C9: an equal-offset candidate pair on a routable road qualifies (the
one-way filter only rejects strictly decreasing offsets), so
`FindPointsWithCommonFeature` can return it; the degenerate equality is
detected only afterwards in `RedressRoute`, which raises the fatal exception
carrying the offset and the road identifier. -/
theorem c9_equal_offset_pair (s : IndexGraphStarter) (j0 j1 : JointId) (rp0 rp1 : RoadPoint)
    (buf : List RoadPoint) (hf : rp0.featureId = rp1.featureId)
    (hp : rp0.pointId = rp1.pointId)
    (hr : (s.graph.getRoad rp0.featureId).isRoad = true)
    (hfind : s.findPointsWithCommonFeature j0 j1 = .ok (rp0, rp1)) :
    Qualifies s.graph (rp0, rp1) ∧
    s.redressRoute [j0, j1] buf = .error (.wrongPointEquality rp0.pointId rp0.featureId) := by
  constructor
  · exact ⟨hf, hr, fun _ => Nat.le_of_eq hp⟩
  · unfold IndexGraphStarter.redressRoute
    rw [if_neg (show ¬([j0, j1].length < 2) from Nat.lt_irrefl 2)]
    rw [show ([j0, j1].zip [j0, j1].tail) = [(j0, j1)] from rfl]
    rw [redressGo, hfind]
    simp only
    rw [if_neg (by rw [hp]; exact lt_irrefl _), if_neg (by rw [hp]; exact lt_irrefl _)]

/-- Witness for C9 on the degenerate concrete network: the equal-offset pair
is returned by resolution and redress fails fatally. -/
theorem c9_equal_offset_pair_witness :
    ((⟨0, 1⟩ : RoadPoint).featureId = (⟨0, 1⟩ : RoadPoint).featureId ∧
      (⟨0, 1⟩ : RoadPoint).pointId = (⟨0, 1⟩ : RoadPoint).pointId ∧
      (samePointStarter.graph.getRoad (⟨0, 1⟩ : RoadPoint).featureId).isRoad = true ∧
      samePointStarter.findPointsWithCommonFeature 0 1 = .ok (⟨0, 1⟩, ⟨0, 1⟩)) ∧
    (Qualifies samePointStarter.graph (⟨0, 1⟩, ⟨0, 1⟩) ∧
      samePointStarter.redressRoute [0, 1] []
        = .error (.wrongPointEquality (⟨0, 1⟩ : RoadPoint).pointId
            (⟨0, 1⟩ : RoadPoint).featureId)) :=
  ⟨⟨rfl, rfl, by decide, rfl⟩,
    c9_equal_offset_pair samePointStarter 0 1 ⟨0, 1⟩ ⟨0, 1⟩ [] rfl rfl (by decide) rfl⟩

/-- The ascending interior loop emits the consecutive offsets from its start
up to the bound, exclusive. -/
theorem ascLoop_eq (featureId : Nat) :
    ∀ (n pointTo pointId : Nat), pointTo - pointId = n →
      ascLoop featureId pointTo pointId
        = (List.range' pointId n).map fun p => (⟨featureId, p⟩ : RoadPoint) := by
  intro n
  induction n with
  | zero =>
    intro b i h
    rw [ascLoop, dif_neg (by omega)]
    rfl
  | succ k ih =>
    intro b i h
    rw [ascLoop, dif_pos (by omega), List.range'_succ]
    simp only [List.map_cons]
    rw [ih b (i + 1) (by omega)]

/-- The descending interior loop emits the consecutive offsets from its start
down to the bound, exclusive. -/
theorem descLoop_eq (featureId : Nat) :
    ∀ (n pointTo pointId : Nat), pointId - pointTo = n →
      descLoop featureId pointTo pointId
        = ((List.range' (pointTo + 1) n).reverse).map fun p => (⟨featureId, p⟩ : RoadPoint) := by
  intro n
  induction n with
  | zero =>
    intro b i h
    rw [descLoop, dif_neg (by omega)]
    rfl
  | succ k ih =>
    intro b i h
    rw [descLoop, dif_pos (by omega), ih b (i - 1) (by omega), List.range'_concat,
      List.reverse_append]
    simp only [List.reverse_cons, List.reverse_nil, List.nil_append, List.singleton_append,
      List.map_cons]
    congr 2
    omega

/-- When every consecutive pair resolves to a common segment with distinct
offsets, the redress loop succeeds and appends exactly the specified
emission blocks. -/
theorem redressGo_emit (s : IndexGraphStarter) (ps : List (JointId × JointId)) :
    ∀ (isFirst : Bool) (acc : List RoadPoint),
      (∀ p ∈ ps, ∃ rp0 rp1, s.findPointsWithCommonFeature p.1 p.2 = .ok (rp0, rp1) ∧
        rp0.pointId ≠ rp1.pointId) →
      redressGo s ps isFirst acc = .ok (acc ++ emitBlocks s isFirst ps) := by
  induction ps with
  | nil =>
    intro isFirst acc _
    simp [redressGo, emitBlocks]
  | cons p rest ih =>
    intro isFirst acc hall
    obtain ⟨rp0, rp1, hfp, hne⟩ := hall p (List.mem_cons_self p rest)
    rw [redressGo, emitBlocks, hfp]
    simp only
    by_cases hlt : rp0.pointId < rp1.pointId
    · rw [if_pos hlt, if_pos hlt]
      rw [ih false _ (fun d hd => hall d (List.mem_cons_of_mem p hd))]
      rw [ascLoop_eq rp0.featureId (rp1.pointId - (rp0.pointId + 1)) rp1.pointId
        (rp0.pointId + 1) rfl]
      unfold interiorAsc
      cases isFirst <;> simp [List.append_assoc]
    · have hgt : rp1.pointId < rp0.pointId := by omega
      rw [if_neg hlt, if_neg hlt, if_pos hgt]
      rw [ih false _ (fun d hd => hall d (List.mem_cons_of_mem p hd))]
      rw [descLoop_eq rp0.featureId (rp0.pointId - 1 - rp1.pointId) rp1.pointId
        (rp0.pointId - 1) rfl]
      unfold interiorDesc
      rw [show rp0.pointId - 1 - rp1.pointId = rp0.pointId - (rp1.pointId + 1) from by omega]
      cases isFirst <;> simp [List.append_assoc]

/-- C1 (amended): for every joint sequence of length at least 2 whose
consecutive pairs each resolve to a qualifying common segment with distinct
offsets, `RedressRoute` appends, for each consecutive pair, the first
resolved point only for the first pair, then every interior point strictly
between the two resolved offsets in offset direction, then the second
resolved point. -/
theorem c1_redress_route_emission (s : IndexGraphStarter) (route : List JointId)
    (buf : List RoadPoint) (h2 : 2 ≤ route.length)
    (hres : ∀ p ∈ route.zip route.tail,
      ∃ rp0 rp1, s.findPointsWithCommonFeature p.1 p.2 = .ok (rp0, rp1) ∧
        rp0.pointId ≠ rp1.pointId) :
    s.redressRoute route buf = .ok (buf ++ emitBlocks s true (route.zip route.tail)) := by
  unfold IndexGraphStarter.redressRoute
  rw [if_neg (by omega)]
  exact redressGo_emit s (route.zip route.tail) true buf hres

/-- Witness for C1 on the concrete one-road network: the 2-node route over
the unique connecting road redresses to the two endpoint positions plus
every intermediate offset, ascending. -/
theorem c1_redress_route_emission_witness :
    (2 ≤ ([0, 1] : List JointId).length) ∧
    oneRoadStarter.redressRoute [0, 1] []
      = .ok ([] ++ emitBlocks oneRoadStarter true
          (([0, 1] : List JointId).zip ([0, 1] : List JointId).tail)) ∧
    emitBlocks oneRoadStarter true (([0, 1] : List JointId).zip ([0, 1] : List JointId).tail)
      = [⟨0, 0⟩, ⟨0, 1⟩, ⟨0, 2⟩, ⟨0, 3⟩] :=
  ⟨by decide,
    c1_redress_route_emission oneRoadStarter [0, 1] [] (by decide)
      (by
        intro p hp
        obtain rfl := List.mem_singleton.mp hp
        exact ⟨⟨0, 0⟩, ⟨0, 3⟩, rfl, by decide⟩),
    by rfl⟩

/-- Counterexample for C1 as stated: on the degenerate network the pair
`(0, 1)` has a qualifying common segment, yet `RedressRoute` raises the
equal-offset exception instead of emitting the resolved points. -/
theorem c1_redress_route_counterexample :
    Qualifies samePointStarter.graph (⟨0, 1⟩, ⟨0, 1⟩) ∧
    samePointStarter.findPointsWithCommonFeature 0 1 = .ok (⟨0, 1⟩, ⟨0, 1⟩) ∧
    samePointStarter.redressRoute [0, 1] [] = .error (.wrongPointEquality 1 0) ∧
    (∀ out : List RoadPoint, samePointStarter.redressRoute [0, 1] [] ≠ .ok out) := by
  refine ⟨by decide, rfl, rfl, ?_⟩
  intro out h
  rw [show samePointStarter.redressRoute [0, 1] []
      = .error (.wrongPointEquality 1 0) from rfl] at h
  exact Except.noConfusion h

end Routing
